import Mathlib

/-!
Verification of the YouTube transcriber backend (`app.py`).

The development shallowly embeds the job-lifecycle core of the backend:
the job record stored in the `active_jobs` map, the sequence of record
mutations performed by `process_transcription` (including the yt-dlp
progress hook and the transcription loop), the pure format renderers of
`generate_formats`, and the `/transcribe` and `/progress` route handlers.
External collaborators (yt-dlp, faster-whisper, the file system, the
clock) are modelled as explicit parameters describing their observable
outcomes; numbers that are Python floats in the source are modelled as
exact rationals.
-/

/-- One transcription segment as produced by `transcribe_audio`
(dict with keys `start`, `end`, `text`). -/
structure Segment where
  start : ℚ
  «end» : ℚ
  text : String
deriving Repr, DecidableEq

/-- The fields of faster-whisper's `info` object that the source reads:
`info.language` and `info.language_probability`. -/
structure LangInfo where
  language : String
  language_probability : ℚ
deriving Repr, DecidableEq

/-- The `performance_stats` dict written by `transcribe_audio`. -/
structure PerfStats where
  transcription_time : String
  language_detected : String
  language_probability : String
  total_segments : ℕ
deriving Repr, DecidableEq

/-- The nested `generated_files` / `files` mapping:
language code ↦ (format code ↦ content / filename).  Python dicts are
inserted in iteration order and the claims use duplicate-free key lists,
so an ordered association list is a faithful model. -/
abbrev Files := List (String × List (String × String))

/-- One entry of the `active_jobs` dict.  `performance_stats` starts as the
empty dict `{}` (modelled `none`) and `files` / `title` are absent until
written, also modelled with `Option`. -/
structure JobRecord where
  status : String
  progress : ℚ
  message : String
  performance_stats : Option PerfStats
  files : Option Files
  title : Option String
deriving Repr, DecidableEq

/-- The record written by the `/transcribe` route at job creation
(`active_jobs[job_id] = {...}`, lines 362–367). -/
def initialRecord : JobRecord :=
  { status := "initializing"
    progress := 0
    message := "Initializing AI transcription..."
    performance_stats := none
    files := none
    title := none }

/-- Python's `%` on rationals with a positive divisor:
`a % d = a - d * floor(a / d)`. -/
def pymod (a d : ℚ) : ℚ := a - d * ⌊a / d⌋

/-- Python's `"%02d" % n` for a natural number: zero-pad to width 2. -/
def pad2 (n : ℕ) : String := if n < 10 then "0" ++ toString n else toString n

/-- Python's `"%03d" % n` for a natural number: zero-pad to width 3. -/
def pad3 (n : ℕ) : String :=
  if n < 10 then "00" ++ toString n
  else if n < 100 then "0" ++ toString n
  else toString n

/-- Python's `f"{x:.2f}"` on the (here exact-rational) time values:
round to 2 decimal places and print with exactly two fractional digits. -/
def format2f (q : ℚ) : String :=
  let n : ℤ := round (q * 100)
  (if n < 0 then "-" else "") ++ toString (n.natAbs / 100) ++ "." ++ pad2 (n.natAbs % 100)

/-- Source `format_srt_time` (lines 231–237): hour field `int(seconds // 3600)`. -/
def srt_hours (q : ℚ) : ℤ := ⌊q / 3600⌋

/-- Source `format_srt_time`: minute field `int((seconds % 3600) // 60)`. -/
def srt_minutes (q : ℚ) : ℤ := ⌊pymod q 3600 / 60⌋

/-- Source `format_srt_time`: second field `int(seconds % 60)` (the Python `%`
result lies in `[0, 60)`, so `int` truncation is the floor). -/
def srt_secs (q : ℚ) : ℤ := ⌊pymod q 60⌋

/-- Source `format_srt_time`: millisecond field `int((seconds % 1) * 1000)`. -/
def srt_millis (q : ℚ) : ℤ := ⌊pymod q 1 * 1000⌋

/-- Source `format_srt_time(seconds)`: `f"{h:02d}:{m:02d}:{s:02d},{ms:03d}"`
(components are nonnegative for the nonnegative times produced by
transcription). -/
def format_srt_time (q : ℚ) : String :=
  pad2 (srt_hours q).toNat ++ ":" ++ pad2 (srt_minutes q).toNat ++ ":"
    ++ pad2 (srt_secs q).toNat ++ "," ++ pad3 (srt_millis q).toNat

/-- Source `format_vtt_time` (lines 239–244): `f"{h:02d}:{m:02d}:{s:06.3f}"`,
with the seconds field printed to three decimal places. -/
def format_vtt_time (q : ℚ) : String :=
  let n : ℕ := (round (pymod q 60 * 1000)).toNat
  pad2 (srt_hours q).toNat ++ ":" ++ pad2 (srt_minutes q).toNat ++ ":"
    ++ pad2 (n / 1000) ++ "." ++ pad3 (n % 1000)

/-- Source `format_time` (lines 246–250): `f"{int(q // 60):02d}:{int(q % 60):02d}"`. -/
def format_time (q : ℚ) : String :=
  pad2 (⌊q / 60⌋).toNat ++ ":" ++ pad2 (⌊pymod q 60⌋).toNat

/-- The fixed `language_map` of `get_language_name` (lines 252–263). -/
def language_map : List (String × String) :=
  [("en", "English"), ("es", "Spanish"), ("fr", "French"), ("de", "German"),
   ("it", "Italian"), ("pt", "Portuguese"), ("ru", "Russian"), ("zh", "Chinese"),
   ("ja", "Japanese"), ("ko", "Korean"), ("ar", "Arabic"), ("hi", "Hindi"),
   ("nl", "Dutch"), ("pl", "Polish"), ("tr", "Turkish"), ("sv", "Swedish"),
   ("da", "Danish"), ("no", "Norwegian"), ("fi", "Finnish"), ("th", "Thai"),
   ("vi", "Vietnamese"), ("id", "Indonesian"), ("ms", "Malay"), ("he", "Hebrew"),
   ("uk", "Ukrainian"), ("cs", "Czech"), ("hu", "Hungarian"), ("ro", "Romanian")]

/-- Source `get_language_name`: table lookup, unknown codes uppercased. -/
def get_language_name (lang_code : String) : String :=
  ((language_map.lookup lang_code).getD lang_code.toUpper)

/-- The `base_text` of `generate_formats` (line 172):
`' '.join([seg['text'] for seg in segments])`. -/
def base_text (segments : List Segment) : String :=
  String.intercalate " " (segments.map (fun seg => seg.text))

/-- The `txt` branch of `generate_formats` (line 184). -/
def mkTxt (title lang_name now text_content : String) : String :=
  "YouTube Video: " ++ title ++ "\nLanguage: " ++ lang_name ++ "\nGenerated: "
    ++ now ++ "\nPowered by Whisper AI\n\n" ++ text_content

/-- The `srt` accumulation loop of `generate_formats` (lines 188–192):
`enumerate(segments, 1)` with entry
`f"{i}\n{start} --> {end}\n{text}\n\n"`. -/
def srt_entries : ℕ → List Segment → String
  | _, [] => ""
  | i, seg :: rest =>
      toString i ++ "\n" ++ format_srt_time seg.start ++ " --> "
        ++ format_srt_time seg.«end» ++ "\n" ++ seg.text ++ "\n\n"
        ++ srt_entries (i + 1) rest

/-- The `srt` branch of `generate_formats`. -/
def mkSrt (segments : List Segment) : String := srt_entries 1 segments

/-- The `vtt` branch of `generate_formats` (lines 196–201). -/
def mkVtt (segments : List Segment) : String :=
  "WEBVTT\n\n" ++ String.join (segments.map (fun seg =>
    format_vtt_time seg.start ++ " --> " ++ format_vtt_time seg.«end» ++ "\n"
      ++ seg.text ++ "\n\n"))

/-- JSON string escaping of quotes and backslashes, as `json.dumps` does
for the strings appearing here. -/
def jsonEscape (s : String) : String :=
  String.mk (s.data.flatMap (fun c =>
    if c = '\\' then ['\\', '\\'] else if c = '"' then ['\\', '"'] else [c]))

/-- The `json` branch of `generate_formats` (lines 204–215): the
`json_content` dict serialised by `json.dumps`.  The printer abstracts the
`indent=2` whitespace layout; field names, order and values follow the
source. -/
def mkJson (title lang_name : String) (segments : List Segment)
    (now : String) (info : LangInfo) : String :=
  "\x7b\"title\": \"" ++ jsonEscape title ++ "\", \"language\": \"" ++ jsonEscape lang_name
    ++ "\", \"segments\": [" ++
    String.intercalate ", " (segments.map (fun seg =>
      "\x7b\"start\": " ++ toString seg.start ++ ", \"end\": " ++ toString seg.«end»
        ++ ", \"text\": \"" ++ jsonEscape seg.text ++ "\"\x7d")) ++
    "], \"metadata\": \x7b\"generated_at\": \"" ++ jsonEscape now
    ++ "\", \"language_detected\": \"" ++ jsonEscape info.language
    ++ "\", \"confidence\": " ++ toString info.language_probability
    ++ ", \"powered_by\": \"Whisper AI\"\x7d\x7d"

/-- Python's `text.replace('"', '""')` from the `csv` branch (line 220):
for a single-character pattern, `str.replace` expands each occurrence. -/
def replace_quote (s : String) : String :=
  String.mk (s.data.flatMap (fun c => if c = '"' then ['"', '"'] else [c]))

/-- One data row of the `csv` branch (line 220):
`f"{start:.2f},{end:.2f},\"{text.replace('\"','\"\"')}\"\n"`. -/
def csv_row (seg : Segment) : String :=
  format2f seg.start ++ "," ++ format2f seg.«end» ++ ",\""
    ++ replace_quote seg.text ++ "\"\n"

/-- The `csv` branch of `generate_formats` (lines 218–221). -/
def mkCsv (segments : List Segment) : String :=
  "Start Time,End Time,Text\n" ++ String.join (segments.map csv_row)

/-- One line of the `md` branch (line 226):
`f"**[{format_time(start)}]** {text}\n\n"`. -/
def md_line (seg : Segment) : String :=
  "**[" ++ format_time seg.start ++ "]** " ++ seg.text ++ "\n\n"

/-- The `md` branch of `generate_formats` (lines 224–227). -/
def mkMd (title lang_name now : String) (segments : List Segment) : String :=
  "# " ++ title ++ "\n\n**Language:** " ++ lang_name ++ "\n**Generated:** " ++ now
    ++ "\n**Powered by:** Whisper AI\n\n## Transcript\n\n"
    ++ String.join (segments.map md_line)

/-- The `if format_type == ...` dispatch inside `generate_formats`
(lines 182–227): recognised codes produce an artifact, any other code
falls through the `elif` chain producing nothing. -/
def render_format (segments : List Segment) (title lang_name : String)
    (info : LangInfo) (now text_content : String) (format_type : String) :
    Option (String × String) :=
  if format_type = "txt" then some ("txt", mkTxt title lang_name now text_content)
  else if format_type = "srt" then some ("srt", mkSrt segments)
  else if format_type = "vtt" then some ("vtt", mkVtt segments)
  else if format_type = "json" then some ("json", mkJson title lang_name segments now info)
  else if format_type = "csv" then some ("csv", mkCsv segments)
  else if format_type = "md" then some ("md", mkMd title lang_name now segments)
  else none

/-- Source `generate_formats(segments, title, language_info, selected_formats,
selected_languages)` (lines 167–229); `now` models `time.strftime(...)`.
The same `base_text` is reused for every language (lines 178–180). -/
def generate_formats (segments : List Segment) (title : String)
    (language_info : LangInfo) (selected_formats selected_languages : List String)
    (now : String) : Files :=
  selected_languages.map (fun lang_code =>
    (lang_code,
      selected_formats.filterMap
        (render_format segments title (get_language_name lang_code) language_info
          now (base_text segments))))

/-- The format codes recognised by the `elif` chain of `generate_formats`. -/
def knownFormats : List String := ["txt", "srt", "vtt", "json", "csv", "md"]

/-! ## The worker: `process_transcription` as a sequence of job-record writes

Every statement of the form `active_jobs[job_id][field] = value` in the
source is one `Mut`; the worker's run is the list of `Mut`s it performs,
determined by the outcomes of the external collaborators.  The job's
observable history is the scan of these writes from the creation record. -/

/-- One assignment `active_jobs[job_id][field] = value`. -/
inductive Mut where
  | status (s : String)
  | progress (p : ℚ)
  | message (m : String)
  | perf (ps : PerfStats)
  | files (f : Files)
  | title (t : String)
deriving Repr, DecidableEq

/-- Apply one write to the stored record. -/
def applyMut (r : JobRecord) (m : Mut) : JobRecord :=
  match m with
  | .status s => { r with status := s }
  | .progress p => { r with progress := p }
  | .message s => { r with message := s }
  | .perf ps => { r with performance_stats := some ps }
  | .files f => { r with files := some f }
  | .title t => { r with title := some t }

/-- The status values among a write sequence, in order. -/
def statusSeq (ms : List Mut) : List String :=
  ms.filterMap (fun m => match m with | .status s => some s | _ => none)

/-- The progress values among a write sequence, in order. -/
def progressSeq (ms : List Mut) : List ℚ :=
  ms.filterMap (fun m => match m with | .progress p => some p | _ => none)

/-- The message values among a write sequence, in order. -/
def messageSeq (ms : List Mut) : List String :=
  ms.filterMap (fun m => match m with | .message s => some s | _ => none)

/-- The files values among a write sequence, in order. -/
def filesSeq (ms : List Mut) : List Files :=
  ms.filterMap (fun m => match m with | .files f => some f | _ => none)

/-- The writes of the yt-dlp `progress_hook` (lines 67–81) over the
download's `downloading` events.  `some p` is an event whose
`_percent_str` parses to `p` (progress is set to `p * 0.3`, then the
message); `none` is an event without a parseable percent (message only). -/
def hookMuts : List (Option ℚ) → List Mut
  | [] => []
  | some p :: rest =>
      .progress (p * (3 / 10)) ::
        .message ("Downloading audio... " ++ toString p ++ "%") :: hookMuts rest
  | none :: rest => .message "Downloading audio..." :: hookMuts rest

/-- The writes of the segment loop in `transcribe_audio` (lines 137–147):
for the `i`-th of `n` segments, `progress = 40 + (i / max(n,1)) * 30` and
a counter message. -/
def loopMuts (n : ℕ) : ℕ → List Segment → List Mut
  | _, [] => []
  | i, _ :: rest =>
      .progress (40 + ((i : ℚ) / (max n 1 : ℕ)) * 30) ::
        .message ("Transcribing... " ++ toString (i + 1) ++ "/" ++ toString n
          ++ " segments") :: loopMuts n (i + 1) rest

/-- Observable outcome of the Media Fetcher call in `download_audio`
(lines 93–105): metadata extraction may fail, or the download itself may
fail after some hook events, or everything succeeds (with yt-dlp's final
`finished` hook event). -/
inductive FetchOutcome where
  | ok (title : String) (duration : ℚ) (events : List (Option ℚ))
  | extractFail (msg : String)
  | downloadFail (title : String) (events : List (Option ℚ)) (msg : String)
deriving Repr, DecidableEq

/-- Observable outcome of the faster-whisper call in `transcribe_audio`:
model loading may fail (after the progress-35 write), transcription may
fail (after the progress-40 write), or it returns the segments and
language info. -/
inductive TranscribeOutcome where
  | ok (segments : List Segment) (info : LangInfo)
  | loadFail (msg : String)
  | runFail (msg : String)
deriving Repr, DecidableEq

/-- The external-world outcomes one `process_transcription` run observes:
whether a URL was given (vs. an uploaded file), the fetch outcome, whether
the audio file exists on disk afterwards, the transcription outcome,
whether writing the artifact files succeeds (`.error` carries the OS error
text), the formatted elapsed-time string, and the `time.strftime` value. -/
structure RunEnv where
  useUrl : Bool
  fetch : FetchOutcome
  audioFound : Bool
  transcription : TranscribeOutcome
  save : Except String Unit
  elapsed : String
  now : String
  languages : List String
  formats : List String

/-- The writes of `download_audio` (lines 65–105) and the error message of
its `except` clause (`f"Download failed: {e}"`). -/
def download_audio_muts (fetch : FetchOutcome) :
    List Mut × Except String (String × ℚ) :=
  match fetch with
  | .extractFail msg =>
      ([.message "Extracting video info..."], .error ("Download failed: " ++ msg))
  | .ok title duration events =>
      ([.message "Extracting video info...",
        .message ("Downloading: " ++ title)] ++ hookMuts events ++
        [.progress 30, .message "Download complete, starting transcription..."],
        .ok (title, duration))
  | .downloadFail title events msg =>
      ([.message "Extracting video info...",
        .message ("Downloading: " ++ title)] ++ hookMuts events,
        .error ("Download failed: " ++ msg))

/-- The writes of `transcribe_audio` (lines 107–165) and the error message
of its `except` clause (`f"AI transcription failed: {e}"`). -/
def transcribe_audio_muts (tr : TranscribeOutcome) (elapsed : String) :
    List Mut × Except String (List Segment × LangInfo) :=
  match tr with
  | .loadFail msg =>
      ([.progress 35, .message "Loading Whisper AI model..."],
        .error ("AI transcription failed: " ++ msg))
  | .runFail msg =>
      ([.progress 35, .message "Loading Whisper AI model...",
        .progress 40, .message "Starting AI transcription..."],
        .error ("AI transcription failed: " ++ msg))
  | .ok segs info =>
      ([.progress 35, .message "Loading Whisper AI model...",
        .progress 40, .message "Starting AI transcription..."] ++
        loopMuts segs.length 0 segs ++
        [.perf { transcription_time := elapsed
                 language_detected := info.language
                 language_probability := format2f info.language_probability
                 total_segments := segs.length },
         .progress 70, .message "Transcription complete, generating files..."],
        .ok (segs, info))

/-- The two writes of the worker's `except` handler (lines 336–337). -/
def errMuts (msg : String) : List Mut :=
  [.status "error", .message msg]

/-- The five writes marking success (lines 329–333). -/
def completedMuts (title : String) (fpaths : Files) : List Mut :=
  [.status "completed", .progress 100, .message "AI transcription completed!",
   .files fpaths, .title title]

/-- The `safe_title` computation (line 311): keep alphanumerics, space, `-`,
`_`; strip trailing whitespace; truncate to 30 characters. -/
def safe_title (title : String) : String :=
  String.mk (((((title.data.filter (fun c =>
    c.isAlphanum || c == ' ' || c == '-' || c == '_'))).reverse.dropWhile
      Char.isWhitespace).reverse).take 30)

/-- The `file_paths` mapping assembled by the save loop (lines 307–318):
filename `f"{safe_title}_{lang_code}.{format_type}"` per artifact. -/
def file_pathsOf (generated : Files) (title : String) : Files :=
  generated.map (fun p =>
    (p.1, p.2.map (fun f => (f.1, safe_title title ++ "_" ++ p.1 ++ "." ++ f.1))))

/-- Writes performed from the audio-file-existence check (line 291)
onwards: transcription, the rendering-stage writes (lines 298–299),
artifact saving, and the terminal writes. -/
def afterAudio (env : RunEnv) (title : String) : List Mut :=
  if env.audioFound then
    match transcribe_audio_muts env.transcription env.elapsed with
    | (t, .error msg) => t ++ errMuts msg
    | (t, .ok (segs, info)) =>
        t ++ [.progress 80, .message "Generating output formats..."] ++
        (match env.save with
         | .error msg => errMuts msg
         | .ok _ =>
             completedMuts title
               (file_pathsOf
                 (generate_formats segs title info env.formats env.languages env.now)
                 title))
  else errMuts "Audio file not found"

/-- All record writes of one `process_transcription(job_id, ...)` run
(lines 265–338), in program order. -/
def process_transcription_muts (env : RunEnv) : List Mut :=
  [.status "processing", .progress 0,
   .message "Starting YouTube transcription..."] ++
  (if env.useUrl then
     match download_audio_muts env.fetch with
     | (t, .error msg) => t ++ errMuts msg
     | (t, .ok (title, _)) => t ++ afterAudio env title
   else afterAudio env "Uploaded Audio")

/-- The job's observable history: the stored record after each successive
write, starting from the record present at creation. -/
def jobTrace (env : RunEnv) (r0 : JobRecord) : List JobRecord :=
  List.scanl applyMut r0 (process_transcription_muts env)

/-- The job record left in `active_jobs` when the worker finishes. -/
def finalRecord (env : RunEnv) (r0 : JobRecord) : JobRecord :=
  (process_transcription_muts env).foldl applyMut r0

/-- The first failure message a run hits, if any, mirroring the
control flow of `process_transcription`. -/
def failureOf (env : RunEnv) : Option String :=
  if env.useUrl then
    match download_audio_muts env.fetch with
    | (_, .error msg) => some msg
    | (_, .ok _) =>
        if env.audioFound then
          match transcribe_audio_muts env.transcription env.elapsed with
          | (_, .error msg) => some msg
          | (_, .ok _) =>
              match env.save with
              | .error msg => some msg
              | .ok _ => none
        else some "Audio file not found"
  else
    if env.audioFound then
      match transcribe_audio_muts env.transcription env.elapsed with
      | (_, .error msg) => some msg
      | (_, .ok _) =>
          match env.save with
          | .error msg => some msg
          | .ok _ => none
    else some "Audio file not found"

/-- The fetch failure message, if the Media Fetcher failed. -/
def fetchFailMsg : FetchOutcome → Option String
  | .ok _ _ _ => none
  | .extractFail msg => some msg
  | .downloadFail _ _ msg => some msg

/-- The `_percent_str` values the download hook parsed, in order. -/
def fetchPercents : FetchOutcome → List ℚ
  | .ok _ _ events => events.filterMap id
  | .extractFail _ => []
  | .downloadFail _ events _ => events.filterMap id

/-! ## The job store and the route handlers -/

/-- The `active_jobs` dict, job id ↦ record. -/
abbrev Store := String → Option JobRecord

/-- Assignment `active_jobs[job_id] = record`. -/
def storeInsert (s : Store) (jid : String) (r : JobRecord) : Store :=
  fun k => if k = jid then some r else s k

/-- Job creation as performed by the `/transcribe` route (lines 362–367):
an unconditional dict assignment of the fresh initializing record. -/
def createJob (s : Store) (jid : String) : Store :=
  storeInsert s jid initialRecord

/-- Response of the `/transcribe` route. -/
inductive SubmitResp where
  | badRequest (error : String)
  | accepted (job_id : String)
deriving Repr, DecidableEq

/-- The `/transcribe` handler (lines 355–412) up to spawning the worker:
the job record is inserted first (line 362); only afterwards is the
presence of a URL or file checked (line 394).  `jid` models the
millisecond-timestamp job id. -/
def transcribe_route (s : Store) (jid : String) (url file_path : Option String) :
    Store × SubmitResp :=
  let s' := createJob s jid
  if url = none ∧ file_path = none then
    (s', .badRequest "No URL or file provided")
  else (s', .accepted jid)

/-- Response of the `/progress/<job_id>` route. -/
inductive ProgressResp where
  | notFound
  | ok (r : JobRecord)
deriving Repr, DecidableEq

/-- The `/progress/<job_id>` handler (lines 414–419). -/
def get_progress (s : Store) (jid : String) : ProgressResp :=
  match s jid with
  | none => .notFound
  | some r => .ok r

/-! ## Generic lemmas about write sequences and traces -/

theorem mem_of_getLast?_eq {α : Type} {l : List α} {a : α}
    (h : l.getLast? = some a) : a ∈ l := by
  induction l with
  | nil => simp at h
  | cons x xs ih =>
    cases xs with
    | nil => simp at h; simp [h]
    | cons y ys =>
      rw [List.getLast?_cons_cons] at h
      exact List.mem_cons_of_mem _ (ih h)

theorem mem_of_head?_eq {α : Type} {l : List α} {a : α}
    (h : l.head? = some a) : a ∈ l := by
  cases l with
  | nil => simp at h
  | cons x xs => simp at h; simp [h]

/-- Monotone concatenation: two internally monotone rational lists whose
values are separated by a pivot concatenate to a monotone list. -/
theorem chainle_append {l₁ l₂ : List ℚ} (c : ℚ)
    (h₁ : List.Chain' (· ≤ ·) l₁) (h₂ : List.Chain' (· ≤ ·) l₂)
    (hb₁ : ∀ x ∈ l₁, x ≤ c) (hb₂ : ∀ y ∈ l₂, c ≤ y) :
    List.Chain' (· ≤ ·) (l₁ ++ l₂) := by
  rw [List.chain'_append]
  refine ⟨h₁, h₂, ?_⟩
  intro x hx y hy
  exact le_trans (hb₁ x (mem_of_getLast?_eq hx))
    (le_trans (le_refl c) (hb₂ y (mem_of_head?_eq hy)))

theorem scanl_cons_form {α β : Type} (f : β → α → β) (b : β) (l : List α) :
    ∃ t, List.scanl f b l = b :: t := by
  cases l with
  | nil => exact ⟨[], rfl⟩
  | cons a as => exact ⟨List.scanl f (f b a) as, rfl⟩

/-- Last element of a list, or a default: recursion shaped like `foldl`. -/
def lastD {α : Type} : List α → α → α
  | [], d => d
  | a :: l, _ => lastD l a

/-- The status stored after running all writes is the last status write,
or the initial status when no status is written. -/
theorem foldl_status (ms : List Mut) (r : JobRecord) :
    (ms.foldl applyMut r).status = lastD (statusSeq ms) r.status := by
  induction ms generalizing r with
  | nil => rfl
  | cons m rest ih =>
    cases m <;>
      simpa [statusSeq, List.filterMap_cons, applyMut, lastD] using ih _

/-- The message stored after running all writes. -/
theorem foldl_message (ms : List Mut) (r : JobRecord) :
    (ms.foldl applyMut r).message = lastD (messageSeq ms) r.message := by
  induction ms generalizing r with
  | nil => rfl
  | cons m rest ih =>
    cases m <;>
      simpa [messageSeq, List.filterMap_cons, applyMut, lastD] using ih _

/-- The files mapping stored after running all writes. -/
theorem foldl_files (ms : List Mut) (r : JobRecord) :
    (ms.foldl applyMut r).files = lastD ((filesSeq ms).map some) r.files := by
  induction ms generalizing r with
  | nil => rfl
  | cons m rest ih =>
    cases m <;>
      simpa [filesSeq, List.filterMap_cons, applyMut, lastD] using ih _

/-- Every status value appearing anywhere in the trace is the initial
status or one of the written statuses. -/
theorem trace_status_mem (ms : List Mut) (r : JobRecord) :
    ∀ x ∈ (List.scanl applyMut r ms).map JobRecord.status,
      x ∈ r.status :: statusSeq ms := by
  induction ms generalizing r with
  | nil => intro x hx; simp [List.scanl] at hx; simp [hx]
  | cons m rest ih =>
    intro x hx
    rw [List.scanl_cons, List.singleton_append, List.map_cons] at hx
    rcases List.mem_cons.mp hx with h | h
    · simp [h]
    · have := ih (applyMut r m) x h
      rcases List.mem_cons.mp this with h' | h'
      · cases m with
        | status s => simp [applyMut] at h'; simp [statusSeq, List.filterMap_cons, h']
        | progress p => simp [applyMut] at h'; simp [statusSeq, List.filterMap_cons, h']
        | message s => simp [applyMut] at h'; simp [statusSeq, List.filterMap_cons, h']
        | perf ps => simp [applyMut] at h'; simp [statusSeq, List.filterMap_cons, h']
        | files f => simp [applyMut] at h'; simp [statusSeq, List.filterMap_cons, h']
        | title t => simp [applyMut] at h'; simp [statusSeq, List.filterMap_cons, h']
      · cases m with
        | status s => simp [statusSeq, List.filterMap_cons] at h' ⊢; tauto
        | progress p => simp [statusSeq, List.filterMap_cons] at h' ⊢; tauto
        | message s => simp [statusSeq, List.filterMap_cons] at h' ⊢; tauto
        | perf ps => simp [statusSeq, List.filterMap_cons] at h' ⊢; tauto
        | files f => simp [statusSeq, List.filterMap_cons] at h' ⊢; tauto
        | title t => simp [statusSeq, List.filterMap_cons] at h' ⊢; tauto

/-- Transfer of a reflexive step relation from the status-write sequence
to the statuses along the trace. -/
theorem chain_status (R : String → String → Prop) (hrefl : ∀ s, R s s)
    (ms : List Mut) (r : JobRecord)
    (h : List.Chain' R (r.status :: statusSeq ms)) :
    List.Chain' R ((List.scanl applyMut r ms).map JobRecord.status) := by
  induction ms generalizing r with
  | nil => simp [List.scanl]
  | cons m rest ih =>
    rw [List.scanl_cons, List.singleton_append, List.map_cons]
    rw [List.chain'_cons']
    constructor
    · intro y hy
      obtain ⟨t, ht⟩ := scanl_cons_form applyMut (applyMut r m) rest
      rw [ht, List.map_cons] at hy
      simp at hy
      subst hy
      cases m with
      | status s =>
          rw [List.chain'_cons'] at h
          have := h.1 s (by simp [statusSeq, List.filterMap_cons])
          simpa [applyMut] using this
      | progress p => simpa [applyMut] using hrefl r.status
      | message s => simpa [applyMut] using hrefl r.status
      | perf ps => simpa [applyMut] using hrefl r.status
      | files f => simpa [applyMut] using hrefl r.status
      | title t => simpa [applyMut] using hrefl r.status
    · apply ih
      cases m with
      | status s =>
          rw [List.chain'_cons'] at h
          simpa [applyMut, statusSeq, List.filterMap_cons] using h.2
      | progress p => simpa [applyMut, statusSeq, List.filterMap_cons] using h
      | message s => simpa [applyMut, statusSeq, List.filterMap_cons] using h
      | perf ps => simpa [applyMut, statusSeq, List.filterMap_cons] using h
      | files f => simpa [applyMut, statusSeq, List.filterMap_cons] using h
      | title t => simpa [applyMut, statusSeq, List.filterMap_cons] using h

/-- Transfer of monotonicity from the progress-write sequence to the
progress values along the trace. -/
theorem chain_progress (ms : List Mut) (r : JobRecord)
    (h : List.Chain' (· ≤ ·) (r.progress :: progressSeq ms)) :
    List.Chain' (fun a b : JobRecord => a.progress ≤ b.progress)
      (List.scanl applyMut r ms) := by
  induction ms generalizing r with
  | nil => simp [List.scanl]
  | cons m rest ih =>
    rw [List.scanl_cons, List.singleton_append]
    rw [List.chain'_cons']
    constructor
    · intro y hy
      obtain ⟨t, ht⟩ := scanl_cons_form applyMut (applyMut r m) rest
      rw [ht] at hy
      simp at hy
      subst hy
      cases m with
      | progress p =>
          rw [List.chain'_cons'] at h
          have := h.1 p (by simp [progressSeq, List.filterMap_cons])
          simpa [applyMut] using this
      | status s => simp [applyMut]
      | message s => simp [applyMut]
      | perf ps => simp [applyMut]
      | files f => simp [applyMut]
      | title t => simp [applyMut]
    · apply ih
      cases m with
      | progress p =>
          rw [List.chain'_cons'] at h
          simpa [applyMut, progressSeq, List.filterMap_cons] using h.2
      | status s => simpa [applyMut, progressSeq, List.filterMap_cons] using h
      | message s => simpa [applyMut, progressSeq, List.filterMap_cons] using h
      | perf ps => simpa [applyMut, progressSeq, List.filterMap_cons] using h
      | files f => simpa [applyMut, progressSeq, List.filterMap_cons] using h
      | title t => simpa [applyMut, progressSeq, List.filterMap_cons] using h

theorem lastD_append {α : Type} (l₁ l₂ : List α) (d : α) :
    lastD (l₁ ++ l₂) d = lastD l₂ (lastD l₁ d) := by
  induction l₁ generalizing d with
  | nil => rfl
  | cons a l ih => simp [lastD, ih]

@[simp] theorem statusSeq_append (l₁ l₂ : List Mut) :
    statusSeq (l₁ ++ l₂) = statusSeq l₁ ++ statusSeq l₂ := by
  simp [statusSeq]

@[simp] theorem progressSeq_append (l₁ l₂ : List Mut) :
    progressSeq (l₁ ++ l₂) = progressSeq l₁ ++ progressSeq l₂ := by
  simp [progressSeq]

@[simp] theorem messageSeq_append (l₁ l₂ : List Mut) :
    messageSeq (l₁ ++ l₂) = messageSeq l₁ ++ messageSeq l₂ := by
  simp [messageSeq]

@[simp] theorem filesSeq_append (l₁ l₂ : List Mut) :
    filesSeq (l₁ ++ l₂) = filesSeq l₁ ++ filesSeq l₂ := by
  simp [filesSeq]

@[simp] theorem statusSeq_nil : statusSeq [] = [] := rfl

@[simp] theorem statusSeq_cons_status (s : String) (ms : List Mut) :
    statusSeq (.status s :: ms) = s :: statusSeq ms := rfl

@[simp] theorem statusSeq_cons_progress (p : ℚ) (ms : List Mut) :
    statusSeq (.progress p :: ms) = statusSeq ms := rfl

@[simp] theorem statusSeq_cons_message (s : String) (ms : List Mut) :
    statusSeq (.message s :: ms) = statusSeq ms := rfl

@[simp] theorem statusSeq_cons_perf (ps : PerfStats) (ms : List Mut) :
    statusSeq (.perf ps :: ms) = statusSeq ms := rfl

@[simp] theorem statusSeq_cons_files (f : Files) (ms : List Mut) :
    statusSeq (.files f :: ms) = statusSeq ms := rfl

@[simp] theorem statusSeq_cons_title (t : String) (ms : List Mut) :
    statusSeq (.title t :: ms) = statusSeq ms := rfl

@[simp] theorem progressSeq_nil : progressSeq [] = [] := rfl

@[simp] theorem progressSeq_cons_status (s : String) (ms : List Mut) :
    progressSeq (.status s :: ms) = progressSeq ms := rfl

@[simp] theorem progressSeq_cons_progress (p : ℚ) (ms : List Mut) :
    progressSeq (.progress p :: ms) = p :: progressSeq ms := rfl

@[simp] theorem progressSeq_cons_message (s : String) (ms : List Mut) :
    progressSeq (.message s :: ms) = progressSeq ms := rfl

@[simp] theorem progressSeq_cons_perf (ps : PerfStats) (ms : List Mut) :
    progressSeq (.perf ps :: ms) = progressSeq ms := rfl

@[simp] theorem progressSeq_cons_files (f : Files) (ms : List Mut) :
    progressSeq (.files f :: ms) = progressSeq ms := rfl

@[simp] theorem progressSeq_cons_title (t : String) (ms : List Mut) :
    progressSeq (.title t :: ms) = progressSeq ms := rfl

@[simp] theorem messageSeq_nil : messageSeq [] = [] := rfl

@[simp] theorem messageSeq_cons_status (s : String) (ms : List Mut) :
    messageSeq (.status s :: ms) = messageSeq ms := rfl

@[simp] theorem messageSeq_cons_progress (p : ℚ) (ms : List Mut) :
    messageSeq (.progress p :: ms) = messageSeq ms := rfl

@[simp] theorem messageSeq_cons_message (s : String) (ms : List Mut) :
    messageSeq (.message s :: ms) = s :: messageSeq ms := rfl

@[simp] theorem messageSeq_cons_perf (ps : PerfStats) (ms : List Mut) :
    messageSeq (.perf ps :: ms) = messageSeq ms := rfl

@[simp] theorem messageSeq_cons_files (f : Files) (ms : List Mut) :
    messageSeq (.files f :: ms) = messageSeq ms := rfl

@[simp] theorem messageSeq_cons_title (t : String) (ms : List Mut) :
    messageSeq (.title t :: ms) = messageSeq ms := rfl

@[simp] theorem filesSeq_nil : filesSeq [] = [] := rfl

@[simp] theorem filesSeq_cons_status (s : String) (ms : List Mut) :
    filesSeq (.status s :: ms) = filesSeq ms := rfl

@[simp] theorem filesSeq_cons_progress (p : ℚ) (ms : List Mut) :
    filesSeq (.progress p :: ms) = filesSeq ms := rfl

@[simp] theorem filesSeq_cons_message (s : String) (ms : List Mut) :
    filesSeq (.message s :: ms) = filesSeq ms := rfl

@[simp] theorem filesSeq_cons_perf (ps : PerfStats) (ms : List Mut) :
    filesSeq (.perf ps :: ms) = filesSeq ms := rfl

@[simp] theorem filesSeq_cons_files (f : Files) (ms : List Mut) :
    filesSeq (.files f :: ms) = f :: filesSeq ms := rfl

@[simp] theorem filesSeq_cons_title (t : String) (ms : List Mut) :
    filesSeq (.title t :: ms) = filesSeq ms := rfl

@[simp] theorem hookMuts_statusSeq (ev : List (Option ℚ)) :
    statusSeq (hookMuts ev) = [] := by
  induction ev with
  | nil => rfl
  | cons e rest ih => cases e <;> simp [hookMuts, statusSeq, List.filterMap_cons] <;>
      simpa [statusSeq] using ih

@[simp] theorem hookMuts_filesSeq (ev : List (Option ℚ)) :
    filesSeq (hookMuts ev) = [] := by
  induction ev with
  | nil => rfl
  | cons e rest ih => cases e <;> simp [hookMuts, filesSeq, List.filterMap_cons] <;>
      simpa [filesSeq] using ih

@[simp] theorem hookMuts_progressSeq (ev : List (Option ℚ)) :
    progressSeq (hookMuts ev) = (ev.filterMap id).map (fun p => p * (3 / 10)) := by
  induction ev with
  | nil => rfl
  | cons e rest ih => cases e <;>
      simp [hookMuts, progressSeq, List.filterMap_cons] <;>
      simpa [progressSeq] using ih

@[simp] theorem loopMuts_statusSeq (n : ℕ) (segs : List Segment) (i : ℕ) :
    statusSeq (loopMuts n i segs) = [] := by
  induction segs generalizing i with
  | nil => rfl
  | cons s rest ih => simp [loopMuts, statusSeq, List.filterMap_cons]
                      simpa [statusSeq] using ih (i + 1)

@[simp] theorem loopMuts_filesSeq (n : ℕ) (segs : List Segment) (i : ℕ) :
    filesSeq (loopMuts n i segs) = [] := by
  induction segs generalizing i with
  | nil => rfl
  | cons s rest ih => simp [loopMuts, filesSeq, List.filterMap_cons]
                      simpa [filesSeq] using ih (i + 1)

@[simp] theorem errMuts_statusSeq (m : String) : statusSeq (errMuts m) = ["error"] := rfl

@[simp] theorem errMuts_progressSeq (m : String) : progressSeq (errMuts m) = [] := rfl

@[simp] theorem errMuts_messageSeq (m : String) : messageSeq (errMuts m) = [m] := rfl

@[simp] theorem errMuts_filesSeq (m : String) : filesSeq (errMuts m) = [] := rfl

@[simp] theorem completedMuts_statusSeq (t : String) (f : Files) :
    statusSeq (completedMuts t f) = ["completed"] := rfl

@[simp] theorem completedMuts_progressSeq (t : String) (f : Files) :
    progressSeq (completedMuts t f) = [100] := rfl

@[simp] theorem completedMuts_messageSeq (t : String) (f : Files) :
    messageSeq (completedMuts t f) = ["AI transcription completed!"] := rfl

@[simp] theorem completedMuts_filesSeq (t : String) (f : Files) :
    filesSeq (completedMuts t f) = [f] := rfl

/-- The status-write sequence of any worker run is
`processing` followed by exactly one terminal status. -/
theorem statusSeq_process (env : RunEnv) :
    statusSeq (process_transcription_muts env) = ["processing", "completed"] ∨
    statusSeq (process_transcription_muts env) = ["processing", "error"] := by
  obtain ⟨u, fetch, found, tr, save, el, now, langs, fmts⟩ := env
  cases u <;> cases fetch <;> cases found <;> cases tr <;> cases save <;>
    simp [process_transcription_muts, afterAudio, download_audio_muts,
      transcribe_audio_muts, errMuts, completedMuts]

/-- The transition relation the spec claims for the `status` field:
along `initializing → downloading → transcribing → rendering → completed`,
or from any non-terminal state directly to `error` (staying put is always
allowed between writes). -/
def specAllowed (a b : String) : Prop :=
  a = b ∨ (a = "initializing" ∧ b = "downloading") ∨
    (a = "downloading" ∧ b = "transcribing") ∨
    (a = "transcribing" ∧ b = "rendering") ∨
    (a = "rendering" ∧ b = "completed") ∨
    ((a = "initializing" ∨ a = "downloading" ∨ a = "transcribing" ∨
      a = "rendering") ∧ b = "error")

instance : DecidableRel specAllowed := fun a b =>
  inferInstanceAs (Decidable (a = b ∨ (a = "initializing" ∧ b = "downloading") ∨
    (a = "downloading" ∧ b = "transcribing") ∨
    (a = "transcribing" ∧ b = "rendering") ∨
    (a = "rendering" ∧ b = "completed") ∨
    ((a = "initializing" ∨ a = "downloading" ∨ a = "transcribing" ∨
      a = "rendering") ∧ b = "error")))

/-- The transition relation the code actually follows:
`initializing → processing → completed`, or `processing → error`. -/
def codeAllowed (a b : String) : Prop :=
  a = b ∨ (a = "initializing" ∧ b = "processing") ∨
    (a = "processing" ∧ (b = "completed" ∨ b = "error"))

instance : DecidableRel codeAllowed := fun a b =>
  inferInstanceAs (Decidable (a = b ∨ (a = "initializing" ∧ b = "processing") ∨
    (a = "processing" ∧ (b = "completed" ∨ b = "error"))))

/-- A concrete run used to exhibit the actual status chain: an uploaded
file that transcribes to no segments and saves successfully. -/
def envC1 : RunEnv :=
  { useUrl := false
    fetch := .extractFail "unused"
    audioFound := true
    transcription := .ok [] { language := "en", language_probability := 1 }
    save := .ok ()
    elapsed := "0.10s"
    now := "2025-01-01 00:00:00"
    languages := ["en"]
    formats := ["txt"] }

/-- C1 counterexample: on a successful run the stored status chain is
`initializing → processing → completed`; `processing` is not a state of
the spec's chain, so the claimed transition discipline is violated at the
very first transition. -/
theorem c1_spec_chain_violated :
    ¬ List.Chain' specAllowed
      ((jobTrace envC1 initialRecord).map JobRecord.status) := by
  have hs : (jobTrace envC1 initialRecord).map JobRecord.status =
      ["initializing", "processing", "processing", "processing", "processing",
       "processing", "processing", "processing", "processing", "processing",
       "processing", "processing", "processing", "completed", "completed",
       "completed", "completed", "completed"] := rfl
  rw [hs]
  simp [List.chain'_cons, specAllowed]

/-- C1 (amended): for every run and every record whose status starts as
`initializing`, the statuses along the job's observable history follow
only the chain `initializing → processing → completed`, or `processing →
error`; in particular no terminal state is ever left and no prior state
is re-entered. -/
theorem c1_status_machine (env : RunEnv) (r0 : JobRecord)
    (h : r0.status = "initializing") :
    List.Chain' codeAllowed ((jobTrace env r0).map JobRecord.status) := by
  apply chain_status codeAllowed (fun s => Or.inl rfl)
  rw [h]
  rcases statusSeq_process env with hseq | hseq <;> rw [hseq] <;>
    simp [List.chain'_cons, codeAllowed]

/-- C1 witness: the amended status-machine theorem applied to a concrete
run from the creation record. -/
theorem c1_status_machine_witness :
    initialRecord.status = "initializing" ∧
      List.Chain' codeAllowed
        ((jobTrace envC1 initialRecord).map JobRecord.status) :=
  ⟨rfl, c1_status_machine envC1 initialRecord rfl⟩

@[simp] theorem lastD_nil {α : Type} (d : α) : lastD [] d = d := rfl

@[simp] theorem lastD_cons {α : Type} (a : α) (l : List α) (d : α) :
    lastD (a :: l) d = lastD l a := rfl

/-- In every failing run the status writes are `processing` then `error`,
and the last message written is the failure message. -/
theorem fail_shape (env : RunEnv) (m : String) (h : failureOf env = some m) :
    statusSeq (process_transcription_muts env) = ["processing", "error"] ∧
    ∀ d, lastD (messageSeq (process_transcription_muts env)) d = m := by
  obtain ⟨u, fetch, found, tr, save, el, now, langs, fmts⟩ := env
  cases u <;> cases fetch <;> cases found <;> cases tr <;> cases save <;>
    simp_all [failureOf, process_transcription_muts, afterAudio,
      download_audio_muts, transcribe_audio_muts, errMuts, completedMuts,
      lastD_append]

/-- C2: whenever any step of a run fails (download, audio lookup,
transcription, or artifact persistence), the worker's `except` handler
leaves the job in status `error` carrying the failure message, the job is
never observed `completed`, and a Media Fetcher failure in particular
yields the `Download failed: ...` message. -/
theorem c2_worker_error_isolation (env : RunEnv) (r0 : JobRecord) (m : String)
    (h0 : r0.status = "initializing") (h1 : failureOf env = some m) :
    (finalRecord env r0).status = "error" ∧
    (finalRecord env r0).message = m ∧
    "completed" ∉ (jobTrace env r0).map JobRecord.status ∧
    (∀ fm, env.useUrl = true → fetchFailMsg env.fetch = some fm →
      m = "Download failed: " ++ fm) := by
  have hshape := fail_shape env m h1
  refine ⟨?_, ?_, ?_, ?_⟩
  · rw [finalRecord, foldl_status, hshape.1]; rfl
  · rw [finalRecord, foldl_message]; exact hshape.2 _
  · intro hx
    have hmem := trace_status_mem (process_transcription_muts env) r0 "completed" hx
    rw [hshape.1, h0] at hmem
    simp at hmem
  · intro fm hurl hf
    obtain ⟨u, fetch, found, tr, save, el, now, langs, fmts⟩ := env
    subst hurl
    cases fetch <;>
      simp_all [failureOf, fetchFailMsg, download_audio_muts]

/-- A concrete failing run: metadata extraction for the URL fails. -/
def envC2 : RunEnv :=
  { useUrl := true
    fetch := .extractFail "HTTP Error 403"
    audioFound := true
    transcription := .ok [] { language := "en", language_probability := 1 }
    save := .ok ()
    elapsed := "0.10s"
    now := "2025-01-01 00:00:00"
    languages := ["en"]
    formats := ["txt"] }

/-- C2 witness: the error-isolation theorem applied to a run whose fetch
fails. -/
theorem c2_worker_error_isolation_witness :
    initialRecord.status = "initializing" ∧
    failureOf envC2 = some "Download failed: HTTP Error 403" ∧
    (finalRecord envC2 initialRecord).status = "error" ∧
    (finalRecord envC2 initialRecord).message = "Download failed: HTTP Error 403" ∧
    "completed" ∉ (jobTrace envC2 initialRecord).map JobRecord.status :=
  ⟨rfl, rfl,
    (c2_worker_error_isolation envC2 initialRecord _ rfl rfl).1,
    (c2_worker_error_isolation envC2 initialRecord _ rfl rfl).2.1,
    (c2_worker_error_isolation envC2 initialRecord _ rfl rfl).2.2.1⟩

/-- Prepending a lower bound to a monotone list keeps it monotone. -/
theorem cons_chainle (c : ℚ) (l : List ℚ) (hc : List.Chain' (· ≤ ·) l)
    (hl : ∀ x ∈ l, c ≤ x) : List.Chain' (· ≤ ·) (c :: l) :=
  List.chain'_cons'.mpr ⟨fun y hy => hl y (mem_of_head?_eq hy), hc⟩

/-- The download hook's progress writes are monotone whenever the reported
percentages are. -/
theorem pmap_chain (ev : List (Option ℚ))
    (hmono : List.Chain' (· ≤ ·) (ev.filterMap id)) :
    List.Chain' (· ≤ ·) ((ev.filterMap id).map (fun p => p * (3 / 10))) := by
  rw [List.chain'_map]
  refine hmono.imp ?_
  intro a b h
  linarith

/-- The download hook's progress writes stay inside the 0–30 band when the
reported percentages stay inside 0–100. -/
theorem pmap_bounds (ev : List (Option ℚ))
    (hb : ∀ p ∈ ev.filterMap id, 0 ≤ p ∧ p ≤ 100) :
    ∀ x ∈ (ev.filterMap id).map (fun p => p * (3 / 10)), 0 ≤ x ∧ x ≤ 30 := by
  intro x hx
  rw [List.mem_map] at hx
  obtain ⟨p, hp, rfl⟩ := hx
  obtain ⟨h0, h100⟩ := hb p hp
  constructor <;> nlinarith

/-- The transcription loop's progress writes are monotone and stay inside
the 40–70 band. -/
theorem loop_progress (n : ℕ) (segs : List Segment) (i : ℕ)
    (hlen : i + segs.length ≤ n) :
    List.Chain' (· ≤ ·) (progressSeq (loopMuts n i segs)) ∧
    ∀ x ∈ progressSeq (loopMuts n i segs),
      40 + ((i : ℚ) / ((max n 1 : ℕ) : ℚ)) * 30 ≤ x ∧ x ≤ 70 := by
  induction segs generalizing i with
  | nil => simp [loopMuts]
  | cons s rest ih =>
    have hM : (0 : ℚ) < ((max n 1 : ℕ) : ℚ) := by
      have : 0 < max n 1 := by omega
      exact_mod_cast this
    have hstep : (40 : ℚ) + ((i : ℚ) / ((max n 1 : ℕ) : ℚ)) * 30 ≤
        40 + (((i + 1 : ℕ) : ℚ) / ((max n 1 : ℕ) : ℚ)) * 30 := by
      have hc : ((i : ℚ)) ≤ ((i + 1 : ℕ) : ℚ) := by exact_mod_cast Nat.le_succ i
      have hdiv := (div_le_div_right hM).mpr hc
      linarith
    have h70 : (40 : ℚ) + ((i : ℚ) / ((max n 1 : ℕ) : ℚ)) * 30 ≤ 70 := by
      have hin : (i : ℚ) ≤ ((max n 1 : ℕ) : ℚ) := by
        have : i ≤ max n 1 := by simp [List.length_cons] at hlen; omega
        exact_mod_cast this
      have hle1 : (i : ℚ) / ((max n 1 : ℕ) : ℚ) ≤ 1 := (div_le_one hM).mpr hin
      nlinarith
    have hrest : (i + 1) + rest.length ≤ n := by
      simp [List.length_cons] at hlen; omega
    obtain ⟨ihc, ihb⟩ := ih (i + 1) hrest
    have hseq : progressSeq (loopMuts n i (s :: rest)) =
        (40 + ((i : ℚ) / ((max n 1 : ℕ) : ℚ)) * 30) ::
          progressSeq (loopMuts n (i + 1) rest) := by
      simp [loopMuts]
    rw [hseq]
    constructor
    · exact cons_chainle _ _ ihc (fun x hx => le_trans hstep (ihb x hx).1)
    · intro x hx
      rcases List.mem_cons.mp hx with rfl | hx
      · exact ⟨le_refl _, h70⟩
      · exact ⟨le_trans hstep (ihb x hx).1, (ihb x hx).2⟩

/-- Shape of the post-audio progress writes in a run that transcribes
successfully: `35, 40`, the loop band, then a tail at 70 or above. -/
theorem band_tail_chain (L T : List ℚ) (hc : List.Chain' (· ≤ ·) L)
    (h40 : ∀ x ∈ L, 40 ≤ x) (h70 : ∀ x ∈ L, x ≤ 70)
    (hT : List.Chain' (· ≤ ·) T) (hT70 : ∀ y ∈ T, 70 ≤ y) :
    List.Chain' (· ≤ ·) ((35 : ℚ) :: 40 :: (L ++ T)) ∧
    ∀ x ∈ (35 : ℚ) :: 40 :: (L ++ T), 30 ≤ x := by
  have hLT : List.Chain' (· ≤ ·) (L ++ T) :=
    chainle_append 70 hc hT h70 hT70
  have hmemLT : ∀ x ∈ L ++ T, (40 : ℚ) ≤ x := by
    intro x hx
    rcases List.mem_append.mp hx with h | h
    · exact h40 x h
    · linarith [hT70 x h]
  constructor
  · apply cons_chainle
    · apply cons_chainle _ _ hLT hmemLT
    · intro x hx
      rcases List.mem_cons.mp hx with rfl | hx
      · norm_num
      · linarith [hmemLT x hx]
  · intro x hx
    rcases List.mem_cons.mp hx with rfl | hx
    · norm_num
    · rcases List.mem_cons.mp hx with rfl | hx
      · norm_num
      · linarith [hmemLT x hx]

/-- The progress writes performed after the audio file is resolved are
monotone and never drop below 30. -/
theorem afterAudio_progress (env : RunEnv) (t : String) :
    List.Chain' (· ≤ ·) (progressSeq (afterAudio env t)) ∧
    ∀ x ∈ progressSeq (afterAudio env t), 30 ≤ x := by
  obtain ⟨u, fetch, found, tr, save, el, now, langs, fmts⟩ := env
  cases found with
  | false => simp [afterAudio, errMuts]
  | true =>
    cases tr with
    | loadFail msg =>
        constructor <;> simp [afterAudio, transcribe_audio_muts, errMuts] <;> norm_num
    | runFail msg =>
        constructor <;>
          simp [afterAudio, transcribe_audio_muts, errMuts, List.chain'_cons] <;>
          norm_num
    | ok segs info =>
      obtain ⟨lc, lb⟩ := loop_progress segs.length segs 0 (by omega)
      have hlow : ∀ x ∈ progressSeq (loopMuts segs.length 0 segs), (40 : ℚ) ≤ x := by
        intro x hx
        have := (lb x hx).1
        simpa using this
      have hhigh : ∀ x ∈ progressSeq (loopMuts segs.length 0 segs), x ≤ 70 :=
        fun x hx => (lb x hx).2
      cases save with
      | error msg =>
        have key := band_tail_chain (progressSeq (loopMuts segs.length 0 segs))
          [70, 80] lc hlow hhigh
          (by simp [List.chain'_cons]; norm_num)
          (by intro y hy; simp at hy; rcases hy with rfl | rfl <;> norm_num)
        have hseq : progressSeq (afterAudio
            ⟨u, fetch, true, .ok segs info, .error msg, el, now, langs, fmts⟩ t) =
            (35 : ℚ) :: 40 :: (progressSeq (loopMuts segs.length 0 segs) ++ [70, 80]) := by
          simp [afterAudio, transcribe_audio_muts, errMuts]
        rw [hseq]
        exact key
      | ok u' =>
        have key := band_tail_chain (progressSeq (loopMuts segs.length 0 segs))
          [70, 80, 100] lc hlow hhigh
          (by simp [List.chain'_cons]; norm_num)
          (by intro y hy; simp at hy; rcases hy with rfl | rfl | rfl <;> norm_num)
        have hseq : progressSeq (afterAudio
            ⟨u, fetch, true, .ok segs info, .ok u', el, now, langs, fmts⟩ t) =
            (35 : ℚ) :: 40 :: (progressSeq (loopMuts segs.length 0 segs) ++
              [70, 80, 100]) := by
          simp [afterAudio, transcribe_audio_muts, completedMuts]
        rw [hseq]
        exact key

/-- C3: provided the Media Fetcher's percentage reports are non-decreasing
and within 0–100, every sequence of progress values written to a job
record starting at progress 0 is monotonically non-decreasing, and hence
so are the progress values along the whole observable history. -/
theorem c3_progress_monotone (env : RunEnv) (r0 : JobRecord)
    (h0 : r0.progress = 0)
    (hmono : List.Chain' (· ≤ ·) (fetchPercents env.fetch))
    (hb : ∀ p ∈ fetchPercents env.fetch, 0 ≤ p ∧ p ≤ 100) :
    List.Chain' (· ≤ ·)
      (r0.progress :: progressSeq (process_transcription_muts env)) ∧
    List.Chain' (fun a b : JobRecord => a.progress ≤ b.progress)
      (jobTrace env r0) := by
  obtain ⟨u, fetch, found, tr, save, el, now, langs, fmts⟩ := env
  have hmain : List.Chain' (· ≤ ·) (r0.progress ::
      progressSeq (process_transcription_muts
        ⟨u, fetch, found, tr, save, el, now, langs, fmts⟩)) := by
    rw [h0]
    cases u with
    | false =>
      obtain ⟨tc, tb⟩ := afterAudio_progress
        ⟨false, fetch, found, tr, save, el, now, langs, fmts⟩ "Uploaded Audio"
      have hseq : progressSeq (process_transcription_muts
          ⟨false, fetch, found, tr, save, el, now, langs, fmts⟩) =
          0 :: progressSeq (afterAudio
            ⟨false, fetch, found, tr, save, el, now, langs, fmts⟩
            "Uploaded Audio") := by
        simp [process_transcription_muts]
      rw [hseq]
      apply cons_chainle
      · apply cons_chainle _ _ tc
        intro x hx
        linarith [tb x hx]
      · intro x hx
        rcases List.mem_cons.mp hx with rfl | hx
        · exact le_refl _
        · linarith [tb x hx]
    | true =>
      cases fetch with
      | extractFail msg =>
        have hseq : progressSeq (process_transcription_muts
            ⟨true, .extractFail msg, found, tr, save, el, now, langs, fmts⟩) =
            [0] := by
          simp [process_transcription_muts, download_audio_muts, errMuts]
        rw [hseq]
        simp [List.chain'_cons]
      | downloadFail ti ev msg =>
        simp only [fetchPercents] at hmono hb
        have hpc := pmap_chain ev hmono
        have hpb := pmap_bounds ev hb
        have hseq : progressSeq (process_transcription_muts
            ⟨true, .downloadFail ti ev msg, found, tr, save, el, now, langs,
              fmts⟩) =
            0 :: (ev.filterMap id).map (fun p => p * (3 / 10)) := by
          simp [process_transcription_muts, download_audio_muts, errMuts]
        rw [hseq]
        apply cons_chainle
        · apply cons_chainle _ _ hpc
          intro x hx
          exact (hpb x hx).1
        · intro x hx
          rcases List.mem_cons.mp hx with rfl | hx
          · exact le_refl _
          · exact (hpb x hx).1
      | ok ti dur ev =>
        simp only [fetchPercents] at hmono hb
        have hpc := pmap_chain ev hmono
        have hpb := pmap_bounds ev hb
        obtain ⟨tc, tb⟩ := afterAudio_progress
          ⟨true, .ok ti dur ev, found, tr, save, el, now, langs, fmts⟩ ti
        have hseq : progressSeq (process_transcription_muts
            ⟨true, .ok ti dur ev, found, tr, save, el, now, langs, fmts⟩) =
            0 :: ((ev.filterMap id).map (fun p => p * (3 / 10)) ++
              (30 : ℚ) :: progressSeq (afterAudio
                ⟨true, .ok ti dur ev, found, tr, save, el, now, langs, fmts⟩
                ti)) := by
          simp [process_transcription_muts, download_audio_muts]
        rw [hseq]
        have hinner : List.Chain' (· ≤ ·)
            ((ev.filterMap id).map (fun p => p * (3 / 10)) ++
              (30 : ℚ) :: progressSeq (afterAudio
                ⟨true, .ok ti dur ev, found, tr, save, el, now, langs, fmts⟩
                ti)) := by
          apply chainle_append 30 hpc
          · exact cons_chainle _ _ tc tb
          · intro x hx
            exact (hpb x hx).2
          · intro y hy
            rcases List.mem_cons.mp hy with rfl | hy
            · exact le_refl _
            · linarith [tb y hy]
        apply cons_chainle
        · apply cons_chainle _ _ hinner
          intro x hx
          rcases List.mem_append.mp hx with hx | hx
          · exact (hpb x hx).1
          · rcases List.mem_cons.mp hx with rfl | hx
            · norm_num
            · linarith [tb x hx]
        · intro x hx
          rcases List.mem_cons.mp hx with rfl | hx
          · exact le_refl _
          · rcases List.mem_append.mp hx with hx | hx
            · exact (hpb x hx).1
            · rcases List.mem_cons.mp hx with rfl | hx
              · norm_num
              · linarith [tb x hx]
  exact ⟨hmain, chain_progress _ r0 hmain⟩

/-- A concrete successful URL run with hook events for the witness. -/
def envC3 : RunEnv :=
  { useUrl := true
    fetch := .ok "Video" 10 [some 10, none, some 50]
    audioFound := true
    transcription := .ok [{ start := 0, «end» := 3 / 2, text := "Hello" }]
      { language := "en", language_probability := 9 / 10 }
    save := .ok ()
    elapsed := "1.00s"
    now := "2025-01-01 00:00:00"
    languages := ["en"]
    formats := ["txt"] }

/-- C3 witness: the monotone-progress theorem applied to a concrete run
whose fetch reports 10% then 50%. -/
theorem c3_progress_monotone_witness :
    initialRecord.progress = 0 ∧
    List.Chain' (fun a b : JobRecord => a.progress ≤ b.progress)
      (jobTrace envC3 initialRecord) := by
  have h0 : initialRecord.progress = 0 := rfl
  have hm : List.Chain' (· ≤ ·) (fetchPercents envC3.fetch) := by
    show List.Chain' (· ≤ ·) [10, 50]
    simp [List.chain'_cons]
    norm_num
  have hb : ∀ p ∈ fetchPercents envC3.fetch, (0 : ℚ) ≤ p ∧ p ≤ 100 := by
    intro p hp
    have hp' : p ∈ [(10 : ℚ), 50] := hp
    rcases List.mem_cons.mp hp' with rfl | hp'
    · norm_num
    · rcases List.mem_cons.mp hp' with rfl | hp'
      · norm_num
      · simp at hp'
  exact ⟨h0, (c3_progress_monotone envC3 initialRecord h0 hm hb).2⟩

/-- A pre-existing (completed) record used to exhibit the overwrite. -/
def oldRecord : JobRecord :=
  { status := "completed"
    progress := 100
    message := "AI transcription completed!"
    performance_stats := none
    files := none
    title := none }

/-- A store already holding a job under the identifier `1700000000000`. -/
def store0 : Store := storeInsert (fun _ => none) "1700000000000" oldRecord

/-- C4 counterexample: creating a job whose identifier is already present
does not fail with any `DuplicateJobID` error — the existing record is
silently replaced by a fresh `initializing` record. -/
theorem c4_duplicate_id_overwrites :
    store0 "1700000000000" = some oldRecord ∧
    (createJob store0 "1700000000000") "1700000000000" = some initialRecord ∧
    initialRecord ≠ oldRecord := by
  refine ⟨rfl, rfl, ?_⟩
  intro h
  have hs := congrArg JobRecord.status h
  simp [initialRecord, oldRecord] at hs

/-- C4 (amended): job creation is an unconditional dict assignment — it
always succeeds, stores the fresh `initializing` record under the given
identifier even when a record is already present, and leaves all other
identifiers untouched. -/
theorem c4_create_unconditional (s : Store) (jid : String) (r : JobRecord)
    (h : s jid = some r) :
    (createJob s jid) jid = some initialRecord ∧
    ∀ k, k ≠ jid → (createJob s jid) k = s k := by
  refine ⟨by simp [createJob, storeInsert], ?_⟩
  intro k hk
  simp [createJob, storeInsert, hk]

/-- C4 witness: the overwrite theorem applied to the populated store. -/
theorem c4_create_unconditional_witness :
    store0 "1700000000000" = some oldRecord ∧
    (createJob store0 "1700000000000") "1700000000000" = some initialRecord :=
  ⟨rfl, (c4_create_unconditional store0 "1700000000000" oldRecord rfl).1⟩

/-- C9: a submission carrying neither URL nor file is rejected with the
400 response only after the job record has been inserted: the
`initializing` record (progress 0) stays in the store and every
subsequent poll of that identifier returns it. -/
theorem c9_rejected_submission_leaves_record (s : Store) (jid : String) :
    (transcribe_route s jid none none).2 = .badRequest "No URL or file provided" ∧
    (transcribe_route s jid none none).1 jid = some initialRecord ∧
    get_progress (transcribe_route s jid none none).1 jid = .ok initialRecord ∧
    initialRecord.status = "initializing" ∧ initialRecord.progress = 0 := by
  refine ⟨rfl, ?_, ?_, rfl, rfl⟩
  · simp [transcribe_route, createJob, storeInsert]
  · simp [get_progress, transcribe_route, createJob, storeInsert]

theorem pymod_nonneg (q d : ℚ) (hd : 0 < d) : 0 ≤ pymod q d := by
  have hfl : ((⌊q / d⌋ : ℚ)) ≤ q / d := Int.floor_le _
  have hmul : d * ((⌊q / d⌋ : ℚ)) ≤ d * (q / d) :=
    mul_le_mul_of_nonneg_left hfl (le_of_lt hd)
  have hqd : d * (q / d) = q := mul_div_cancel₀ q (ne_of_gt hd)
  unfold pymod
  linarith

theorem pymod_lt (q d : ℚ) (hd : 0 < d) : pymod q d < d := by
  have hfl : q / d < (⌊q / d⌋ : ℚ) + 1 := Int.lt_floor_add_one _
  have hmul : d * (q / d) < d * ((⌊q / d⌋ : ℚ) + 1) :=
    (mul_lt_mul_left hd).mpr hfl
  have hqd : d * (q / d) = q := mul_div_cancel₀ q (ne_of_gt hd)
  unfold pymod
  nlinarith

/-- Floor of a rational divided by 60 is integer division of its floor. -/
theorem floor_div_sixty (q : ℚ) : ⌊q / 60⌋ = ⌊q⌋ / 60 := by
  apply le_antisymm
  · have h1 : ((⌊q / 60⌋ : ℚ)) ≤ q / 60 := Int.floor_le _
    have h2 : ((⌊q / 60⌋ * 60 : ℤ) : ℚ) ≤ q := by push_cast; linarith
    have h3 : ⌊q / 60⌋ * 60 ≤ ⌊q⌋ := Int.le_floor.mpr h2
    omega
  · have hstep : (⌊q⌋ / 60) * 60 ≤ ⌊q⌋ := by omega
    have h1 : ((⌊q⌋ / 60 * 60 : ℤ) : ℚ) ≤ q :=
      le_trans (by exact_mod_cast hstep) (Int.floor_le q)
    have h2 : ((⌊q⌋ / 60 : ℤ) : ℚ) ≤ q / 60 := by
      rw [le_div_iff₀ (by norm_num : (0:ℚ) < 60)]
      push_cast at h1 ⊢
      linarith
    exact Int.le_floor.mpr h2

/-- C10: the Markdown timestamp is `floor(start/60)` minutes (not reduced
modulo 60, no hour field) and `floor(start) mod 60` seconds, each
zero-padded to two digits; 3661 seconds renders as `61:01`, and each
Markdown line wraps this timestamp in `**[...]**` before the text. -/
theorem c10_md_timestamp (q : ℚ) (hq : 0 ≤ q) (seg : Segment)
    (title lang_name now : String) (segs : List Segment) :
    format_time q = pad2 (⌊q / 60⌋).toNat ++ ":" ++ pad2 (⌊q⌋.toNat % 60) ∧
    format_time 3661 = "61:01" ∧
    md_line seg = "**[" ++ format_time seg.start ++ "]** " ++ seg.text ++ "\n\n" ∧
    mkMd title lang_name now segs =
      "# " ++ title ++ "\n\n**Language:** " ++ lang_name ++ "\n**Generated:** "
        ++ now ++ "\n**Powered by:** Whisper AI\n\n## Transcript\n\n"
        ++ String.join (segs.map md_line) := by
  refine ⟨?_, ?_, rfl, rfl⟩
  · have h1 : ⌊pymod q 60⌋ = ⌊q⌋ - 60 * ⌊q / 60⌋ := by
      have hc : q - 60 * ((⌊q / 60⌋ : ℚ)) = q - ((60 * ⌊q / 60⌋ : ℤ) : ℚ) := by
        push_cast; ring
      rw [pymod, hc, Int.floor_sub_int]
    have hq0 : 0 ≤ ⌊q⌋ := Int.floor_nonneg.mpr hq
    have h2 : (⌊pymod q 60⌋).toNat = ⌊q⌋.toNat % 60 := by
      rw [h1, floor_div_sixty]
      omega
    rw [format_time, h2]
  · have ha : ⌊(3661 : ℚ) / 60⌋ = 61 := by norm_num
    have hb' : ⌊pymod (3661 : ℚ) 60⌋ = 1 := by
      rw [pymod, ha]
      norm_num
    simp only [format_time, ha, hb']
    decide

/-- C10 witness: the timestamp theorem applied at 3661 seconds. -/
theorem c10_md_timestamp_witness :
    (0 : ℚ) ≤ 3661 ∧
    (format_time 3661 =
      pad2 (⌊(3661 : ℚ) / 60⌋).toNat ++ ":" ++ pad2 (⌊(3661 : ℚ)⌋.toNat % 60) ∧
    format_time 3661 = "61:01" ∧
    md_line { start := 0, «end» := 1, text := "hi" } =
      "**[" ++ format_time ({ start := 0, «end» := 1, text := "hi" } : Segment).start
        ++ "]** " ++ ({ start := 0, «end» := 1, text := "hi" } : Segment).text
        ++ "\n\n" ∧
    mkMd "T" "English" "now" [] =
      "# " ++ "T" ++ "\n\n**Language:** " ++ "English" ++ "\n**Generated:** "
        ++ "now" ++ "\n**Powered by:** Whisper AI\n\n## Transcript\n\n"
        ++ String.join (List.map md_line [])) :=
  ⟨by norm_num,
    c10_md_timestamp 3661 (by norm_num) { start := 0, «end» := 1, text := "hi" }
      "T" "English" "now" []⟩

theorem pad2_length_fin : ∀ k : Fin 100, (pad2 k.val).length = 2 := by decide

theorem pad2_length (k : ℕ) (hk : k < 100) : (pad2 k).length = 2 :=
  pad2_length_fin ⟨k, hk⟩

theorem quote_count_flatMap (l : List Char) :
    (l.flatMap (fun c => if c = '"' then ['"', '"'] else [c])).count '"' =
      2 * l.count '"' := by
  induction l with
  | nil => rfl
  | cons c rest ih =>
    by_cases hc : c = '"'
    · subst hc
      simp [List.flatMap_cons, List.count_append, List.count_cons, ih]
      ring
    · simp [List.flatMap_cons, List.count_append, List.count_cons, hc, ih]

/-- C6: csv rendering emits the fixed header row, then per segment a row
with 2-decimal start/end and the text wrapped in double quotes with each
embedded quote doubled; the example text `He said "hi"` yields the field
`"He said ""hi"""`. -/
theorem c6_csv_rendering (segs : List Segment) (q : ℚ) (s : String) :
    mkCsv segs = "Start Time,End Time,Text\n" ++
      String.join (segs.map (fun seg => format2f seg.start ++ "," ++
        format2f seg.«end» ++ ",\"" ++ replace_quote seg.text ++ "\"\n")) ∧
    (∃ a b : String, format2f q = a ++ "." ++ b ∧ b.length = 2) ∧
    (replace_quote s).data.count '"' = 2 * s.data.count '"' ∧
    replace_quote "He said \"hi\"" = "He said \"\"hi\"\"" ∧
    csv_row { start := 0, «end» := 3 / 2, text := "He said \"hi\"" } =
      "0.00,1.50,\"He said \"\"hi\"\"\"\n" := by
  refine ⟨rfl, ?_, ?_, by decide, ?_⟩
  · refine ⟨(if round (q * 100) < 0 then "-" else "") ++
      toString ((round (q * 100)).natAbs / 100),
      pad2 ((round (q * 100)).natAbs % 100), ?_, ?_⟩
    · simp [format2f, String.append_assoc]
    · exact pad2_length _ (Nat.mod_lt _ (by norm_num))
  · exact quote_count_flatMap s.data
  · have hr0 : round ((0 : ℚ) * 100) = 0 := by norm_num [round_eq]
    have hr15 : round ((3 / 2 : ℚ) * 100) = 150 := by norm_num [round_eq]
    simp only [csv_row, format2f, hr0, hr15]
    decide

/-- C5: requesting formats `["txt","srt"]` and languages `["en","es"]`
yields exactly one artifact per (language, format) pair — four in all —
and the `txt` artifacts of both languages end in the same transcript body
(and the `srt` artifacts are identical), because the transcribed text is
reused verbatim for every language. -/
theorem c5_four_artifacts_no_translation (segs : List Segment) (title : String)
    (info : LangInfo) (now : String) :
    ∃ hEn hEs : String,
      generate_formats segs title info ["txt", "srt"] ["en", "es"] now =
        [("en", [("txt", hEn ++ base_text segs), ("srt", mkSrt segs)]),
         ("es", [("txt", hEs ++ base_text segs), ("srt", mkSrt segs)])] := by
  have hg : generate_formats segs title info ["txt", "srt"] ["en", "es"] now =
      [("en", [("txt", mkTxt title "English" now (base_text segs)),
               ("srt", mkSrt segs)]),
       ("es", [("txt", mkTxt title "Spanish" now (base_text segs)),
               ("srt", mkSrt segs)])] := rfl
  refine ⟨"YouTube Video: " ++ title ++ "\nLanguage: " ++ "English" ++
      "\nGenerated: " ++ now ++ "\nPowered by Whisper AI\n\n",
    "YouTube Video: " ++ title ++ "\nLanguage: " ++ "Spanish" ++
      "\nGenerated: " ++ now ++ "\nPowered by Whisper AI\n\n", ?_⟩
  rw [hg]
  have hEn : mkTxt title "English" now (base_text segs) =
      ("YouTube Video: " ++ title ++ "\nLanguage: " ++ "English" ++
        "\nGenerated: " ++ now ++ "\nPowered by Whisper AI\n\n") ++
        base_text segs := by
    simp [mkTxt, String.append_assoc]
  have hEs : mkTxt title "Spanish" now (base_text segs) =
      ("YouTube Video: " ++ title ++ "\nLanguage: " ++ "Spanish" ++
        "\nGenerated: " ++ now ++ "\nPowered by Whisper AI\n\n") ++
        base_text segs := by
    simp [mkTxt, String.append_assoc]
  rw [hEn, hEs]

/-- Interpretation of an SRT timestamp's four printed fields back as
seconds: `h*3600 + m*60 + s + ms/1000`. -/
def parse_srt_time (h m s ms : ℕ) : ℚ :=
  (h : ℚ) * 3600 + (m : ℚ) * 60 + (s : ℚ) + (ms : ℚ) / 1000

theorem srt_parse_back (q : ℚ) (hq : 0 ≤ q) :
    parse_srt_time (srt_hours q).toNat (srt_minutes q).toNat
        (srt_secs q).toNat (srt_millis q).toNat ≤ q ∧
    q - parse_srt_time (srt_hours q).toNat (srt_minutes q).toNat
        (srt_secs q).toNat (srt_millis q).toNat < 1 / 1000 := by
  have hcast : ∀ (x : ℤ), 0 ≤ x → ((x.toNat : ℕ) : ℚ) = (x : ℚ) := by
    intro x hx
    exact_mod_cast Int.toNat_of_nonneg hx
  have hh0 : 0 ≤ srt_hours q := Int.floor_nonneg.mpr (by positivity)
  have hm0 : 0 ≤ srt_minutes q :=
    Int.floor_nonneg.mpr (by
      have := pymod_nonneg q 3600 (by norm_num)
      positivity)
  have hs0 : 0 ≤ srt_secs q :=
    Int.floor_nonneg.mpr (pymod_nonneg q 60 (by norm_num))
  have hms0 : 0 ≤ srt_millis q :=
    Int.floor_nonneg.mpr (by
      have := pymod_nonneg q 1 (by norm_num)
      positivity)
  have hm : srt_minutes q = ⌊q / 60⌋ - 60 * srt_hours q := by
    have hpm : pymod q 3600 / 60 = q / 60 - ((60 * srt_hours q : ℤ) : ℚ) := by
      unfold pymod srt_hours
      push_cast
      ring
    rw [srt_minutes, hpm, Int.floor_sub_int]
  have hs : srt_secs q = ⌊q⌋ - 60 * ⌊q / 60⌋ := by
    have hpm : pymod q 60 = q - ((60 * ⌊q / 60⌋ : ℤ) : ℚ) := by
      unfold pymod
      push_cast
      ring
    rw [srt_secs, hpm, Int.floor_sub_int]
  have hfrac : pymod q 1 = q - ((⌊q⌋ : ℤ) : ℚ) := by
    unfold pymod
    rw [div_one]
    push_cast
    ring
  have hwhole : parse_srt_time (srt_hours q).toNat (srt_minutes q).toNat
      (srt_secs q).toNat (srt_millis q).toNat =
      (⌊q⌋ : ℚ) + ((srt_millis q : ℤ) : ℚ) / 1000 := by
    rw [parse_srt_time, hcast _ hh0, hcast _ hm0, hcast _ hs0, hcast _ hms0,
      hm, hs]
    push_cast
    ring
  have hle : ((srt_millis q : ℤ) : ℚ) ≤ (q - (⌊q⌋ : ℚ)) * 1000 := by
    have := Int.floor_le (pymod q 1 * 1000)
    rw [hfrac] at this
    simpa [srt_millis, hfrac] using this
  have hlt : (q - (⌊q⌋ : ℚ)) * 1000 < ((srt_millis q : ℤ) : ℚ) + 1 := by
    have := Int.lt_floor_add_one (pymod q 1 * 1000)
    rw [hfrac] at this
    simpa [srt_millis, hfrac] using this
  rw [hwhole]
  constructor
  · linarith
  · linarith

theorem join_cons (a : String) (l : List String) :
    String.join (a :: l) = a ++ String.join l := by
  apply String.ext
  simp [String.data_join]

/-- The SRT loop renders exactly the sequentially indexed entries,
starting at index `i`. -/
theorem srt_entries_join (segs : List Segment) : ∀ i : ℕ,
    srt_entries i segs = String.join
      ((((List.range segs.length).map (fun k => k + i)).zip segs).map
        (fun p => toString p.1 ++ "\n" ++ format_srt_time p.2.start ++ " --> "
          ++ format_srt_time p.2.«end» ++ "\n" ++ p.2.text ++ "\n\n")) := by
  induction segs with
  | nil => intro i; rfl
  | cons s rest ih =>
    intro i
    have hr : (List.range (s :: rest).length).map (fun k => k + i) =
        i :: (List.range rest.length).map (fun k => k + (i + 1)) := by
      rw [List.length_cons, List.range_succ_eq_map]
      simp [List.map_map, Function.comp]
      intro k hk
      omega
    rw [hr]
    simp only [List.zip_cons_cons, List.map_cons, join_cons]
    rw [srt_entries, ih (i + 1)]

/-- C7: for segments with non-negative times, the SRT rendering assigns
1-based sequential indices with a blank line after each entry, and reading
the printed timestamp fields back recovers each segment's start and end
within one millisecond. -/
theorem c7_srt_roundtrip (segs : List Segment)
    (hseg : ∀ seg ∈ segs, 0 ≤ seg.start ∧ 0 ≤ seg.«end») :
    (∀ seg ∈ segs,
      (parse_srt_time (srt_hours seg.start).toNat (srt_minutes seg.start).toNat
          (srt_secs seg.start).toNat (srt_millis seg.start).toNat ≤ seg.start ∧
        seg.start - parse_srt_time (srt_hours seg.start).toNat
          (srt_minutes seg.start).toNat (srt_secs seg.start).toNat
          (srt_millis seg.start).toNat < 1 / 1000) ∧
      (parse_srt_time (srt_hours seg.«end»).toNat (srt_minutes seg.«end»).toNat
          (srt_secs seg.«end»).toNat (srt_millis seg.«end»).toNat ≤ seg.«end» ∧
        seg.«end» - parse_srt_time (srt_hours seg.«end»).toNat
          (srt_minutes seg.«end»).toNat (srt_secs seg.«end»).toNat
          (srt_millis seg.«end»).toNat < 1 / 1000)) ∧
    mkSrt segs = String.join
      ((((List.range segs.length).map (fun k => k + 1)).zip segs).map
        (fun p => toString p.1 ++ "\n" ++ format_srt_time p.2.start ++ " --> "
          ++ format_srt_time p.2.«end» ++ "\n" ++ p.2.text ++ "\n\n")) := by
  constructor
  · intro seg hm
    obtain ⟨h1, h2⟩ := hseg seg hm
    exact ⟨srt_parse_back seg.start h1, srt_parse_back seg.«end» h2⟩
  · exact srt_entries_join segs 1

/-- C7 witness: the round-trip theorem applied to one concrete segment. -/
theorem c7_srt_roundtrip_witness :
    mkSrt [({ start := 0, «end» := 3 / 2, text := "Hello" } : Segment)] =
      String.join
        ((((List.range
            [({ start := 0, «end» := 3 / 2, text := "Hello" } : Segment)].length).map
              (fun k => k + 1)).zip
            [({ start := 0, «end» := 3 / 2, text := "Hello" } : Segment)]).map
          (fun p => toString p.1 ++ "\n" ++ format_srt_time p.2.start ++ " --> "
            ++ format_srt_time p.2.«end» ++ "\n" ++ p.2.text ++ "\n\n")) := by
  have hpos : ∀ seg ∈ [({ start := 0, «end» := 3 / 2, text := "Hello" } : Segment)],
      (0 : ℚ) ≤ seg.start ∧ 0 ≤ seg.«end» := by
    intro seg hm
    rcases List.mem_cons.mp hm with rfl | hm
    · norm_num
    · simp at hm
  exact (c7_srt_roundtrip _ hpos).2

/-- Unrecognised format codes fall through every `elif` branch and produce
nothing. -/
theorem render_format_none (segs : List Segment) (title ln : String)
    (info : LangInfo) (now txt : String) (f : String)
    (h : f ∉ knownFormats) :
    render_format segs title ln info now txt f = none := by
  simp [knownFormats] at h
  obtain ⟨h1, h2, h3, h4, h5, h6⟩ := h
  simp [render_format, h1, h2, h3, h4, h5, h6]

theorem file_pathsOf_empty (langs : List String) (title : String) :
    file_pathsOf (langs.map (fun l => (l, []))) title =
      langs.map (fun l => (l, [])) := by
  simp [file_pathsOf, List.map_map]

/-- C8: if every requested format code is unrecognised, format generation
produces no artifact and raises no error, and a successful run still
reaches `completed` with an artifact mapping holding an empty entry per
requested language. -/
theorem c8_unknown_formats (env : RunEnv) (r0 : JobRecord)
    (hf : ∀ f ∈ env.formats, f ∉ knownFormats)
    (hok : failureOf env = none) :
    (finalRecord env r0).status = "completed" ∧
    (finalRecord env r0).files =
      some (env.languages.map (fun l => (l, []))) ∧
    (∀ (segs : List Segment) (title : String) (info : LangInfo) (now : String),
      generate_formats segs title info env.formats env.languages now =
        env.languages.map (fun l => (l, []))) := by
  obtain ⟨u, fetch, found, tr, save, el, nw, langs, fmts⟩ := env
  have hgen : ∀ (segs : List Segment) (title : String) (info : LangInfo)
      (now : String),
      generate_formats segs title info fmts langs now =
        langs.map (fun l => (l, [])) := by
    intro segs title info now
    unfold generate_formats
    apply List.map_congr_left
    intro lc _
    have hnil : fmts.filterMap (render_format segs title
        (get_language_name lc) info now (base_text segs)) = [] :=
      List.filterMap_eq_nil.mpr (fun f hfm =>
        render_format_none segs title (get_language_name lc) info now
          (base_text segs) f (hf f hfm))
    simp [hnil]
  refine ⟨?_, ?_, hgen⟩
  · rw [finalRecord, foldl_status]
    cases u <;> cases fetch <;> cases found <;> cases tr <;> cases save <;>
      simp_all [failureOf, process_transcription_muts, afterAudio,
        download_audio_muts, transcribe_audio_muts, errMuts, completedMuts]
  · rw [finalRecord, foldl_files]
    cases u <;> cases fetch <;> cases found <;> cases tr <;> cases save <;>
      simp_all [failureOf, process_transcription_muts, afterAudio,
        download_audio_muts, transcribe_audio_muts, errMuts, completedMuts,
        file_pathsOf_empty]

/-- A successful run that requests only the unrecognised format `docx`. -/
def envC8 : RunEnv :=
  { useUrl := false
    fetch := .extractFail "unused"
    audioFound := true
    transcription := .ok [] { language := "en", language_probability := 1 }
    save := .ok ()
    elapsed := "0.10s"
    now := "2025-01-01 00:00:00"
    languages := ["en"]
    formats := ["docx"] }

/-- C8 witness: the unknown-format theorem applied to a run requesting
only `docx`. -/
theorem c8_unknown_formats_witness :
    failureOf envC8 = none ∧
    (finalRecord envC8 initialRecord).status = "completed" ∧
    (finalRecord envC8 initialRecord).files =
      some (envC8.languages.map (fun l => (l, []))) := by
  have hf : ∀ f ∈ envC8.formats, f ∉ knownFormats := by
    intro f hfm
    have hfd : f = "docx" := by simpa [envC8] using hfm
    subst hfd
    decide
  have hok : failureOf envC8 = none := rfl
  exact ⟨hok, (c8_unknown_formats envC8 initialRecord hf hok).1,
    (c8_unknown_formats envC8 initialRecord hf hok).2.1⟩
